import Mathlib

/-!
Shallow embedding of the UnderWriter lexical metrics engine
(`src/analyzer.py` together with `src/utils.py`).

The engine's contract is its spaCy-free fallback path: the module tries to
load a spaCy model and silently falls back to regex-based tokenization when
none is available, and the specification fixes the fallback behaviour as the
required contract.  We embed that path.

Modelling conventions:
  * a Python `str` (a Document) is a `List Char`;
  * Python `float` arithmetic is modelled exactly over `ℚ`;
  * `round(x, d)` is modelled as rounding `x * 10^d` to the nearest integer
    and dividing back;
  * regex operations (`findall`, `split`) are embedded as explicit scanners
    over character lists with the same left-to-right, non-overlapping match
    semantics.
-/

/-- ASCII letter, the character class `[A-Za-z]`. -/
def isAsciiLetter (c : Char) : Bool :=
  (65 ≤ c.toNat && c.toNat ≤ 90) || (97 ≤ c.toNat && c.toNat ≤ 122)

/-- The apostrophe character (ASCII 39). -/
def apos : Char := Char.ofNat 39

/-- Character class of the word-token regex `_WORD_RE = [A-Za-z']+`. -/
def isWordChar (c : Char) : Bool := isAsciiLetter c || c == apos

/-- Python regex `\w` on ASCII text: letters, digits and underscore. -/
def isWordish (c : Char) : Bool :=
  isAsciiLetter c || (48 ≤ c.toNat && c.toNat ≤ 57) || c.toNat == 95

/-- Python regex `\s` on ASCII text: space, TAB, LF, VT, FF, CR. -/
def isSpaceChar (c : Char) : Bool := c.toNat == 32 || (9 ≤ c.toNat && c.toNat ≤ 13)

/-- ASCII lowercasing, the effect of Python `str.lower` on ASCII characters. -/
def lowerChar (c : Char) : Char :=
  if 65 ≤ c.toNat && c.toNat ≤ 90 then Char.ofNat (c.toNat + 32) else c

/-- Lowercase a whole token, Python `w.lower()`. -/
def lowerTok (w : List Char) : List Char := w.map lowerChar

/-- Membership in Python `string.punctuation`
(ASCII ranges 33–47, 58–64, 91–96, 123–126). -/
def isPunctChar (c : Char) : Bool :=
  (33 ≤ c.toNat && c.toNat ≤ 47) || (58 ≤ c.toNat && c.toNat ≤ 64) ||
  (91 ≤ c.toNat && c.toNat ≤ 96) || (123 ≤ c.toNat && c.toNat ≤ 126)

/-- Sentence-terminal characters, the regex class `[.!?]`. -/
def isSentenceDelim (c : Char) : Bool := c == '.' || c == '!' || c == '?'

/-- Collapse every run of whitespace to a single space
(`re.sub(r"\s+", " ", text)`); the flag records whether the previous
character was whitespace. -/
def squashSpaces : Bool → List Char → List Char
  | _, [] => []
  | prevWS, c :: rest =>
    if isSpaceChar c then
      if prevWS then squashSpaces true rest else ' ' :: squashSpaces true rest
    else c :: squashSpaces false rest

/-- Python `str.strip()`: drop leading and trailing whitespace. -/
def stripWS (l : List Char) : List Char :=
  ((l.dropWhile (fun c => isSpaceChar c)).reverse.dropWhile
    (fun c => isSpaceChar c)).reverse

/-- `utils.clean_text`: normalize whitespace, then strip. -/
def clean_text (text : List Char) : List Char := stripWS (squashSpaces false text)

/-- Maximal-run tokenizer: accumulates the current run of characters
satisfying `p` (in reverse) and flushes it at each non-matching character.
This is `re.findall` for the pattern `[c : p c]+`. -/
def runTokensAux (p : Char → Bool) : List Char → List Char → List (List Char)
  | [], cur => if cur.isEmpty then [] else [cur.reverse]
  | c :: rest, cur =>
    if p c then runTokensAux p rest (c :: cur)
    else if cur.isEmpty then runTokensAux p rest []
    else cur.reverse :: runTokensAux p rest []

/-- `_fallback_tokens`: `_WORD_RE.findall(text)` with `_WORD_RE = [A-Za-z']+`. -/
def fallback_tokens (text : List Char) : List (List Char) :=
  runTokensAux isWordChar text []

/-- `_tokenize_alpha` in the fallback (no spaCy) configuration. -/
def tokenize_alpha (text : List Char) : List (List Char) := fallback_tokens text

/-- Split a character list at every sentence-terminal character, keeping
empty fragments (so a run of terminals yields empty fragments that the
caller filters away); together with that filtering this is
`re.split(r"[.!?]+", text)` up to empty fragments. -/
def splitSentencesRaw : List Char → List (List Char)
  | [] => [[]]
  | c :: rest =>
    let r := splitSentencesRaw rest
    if isSentenceDelim c then [] :: r
    else
      match r with
      | [] => [[c]]
      | h :: t => (c :: h) :: t

/-- Sentence fragments of a text: split at `[.!?]+`, strip each fragment,
drop the empty ones — the `sentences` list computed by the analyzer. -/
def sentencesOf (text : List Char) : List (List Char) :=
  ((splitSentencesRaw text).map stripWS).filter (fun s => !s.isEmpty)

/-- First-occurrence deduplication with an explicit `seen` accumulator:
the key order of a Python `Counter`/`dict` built from a list. -/
def dedupFirstAux [DecidableEq α] : List α → List α → List α
  | [], _ => []
  | x :: xs, seen =>
    if x ∈ seen then dedupFirstAux xs seen else x :: dedupFirstAux xs (x :: seen)

/-- Distinct elements of a list in order of first appearance. -/
def dedupFirst [DecidableEq α] (l : List α) : List α := dedupFirstAux l []

/-- `Counter(l).most_common(k)`, keys only: the distinct elements of `l`
sorted by descending multiplicity, ties broken by first appearance
(Python's sort is stable over the counter's insertion order), truncated
to `k`. -/
def mostCommonKeys (k : ℕ) (l : List (List Char)) : List (List Char) :=
  (List.insertionSort (fun a b => l.count b ≤ l.count a) (dedupFirst l)).take k

/-- Python `max` over a nonempty list of naturals (junk value `0` on `[]`). -/
def listMax : List ℕ → ℕ
  | [] => 0
  | [x] => x
  | x :: y :: t => max x (listMax (y :: t))

/-- Python `min` over a nonempty list of naturals (junk value `0` on `[]`). -/
def listMin : List ℕ → ℕ
  | [] => 0
  | [x] => x
  | x :: y :: t => min x (listMin (y :: t))

/-- `_clamp` with its default bounds: constrain to `[0, 1]`. -/
def clamp (x : ℚ) : ℚ := max 0 (min 1 x)

/-- Python `round(x, d)`: round to `d` decimal places. -/
def roundTo (d : ℕ) (x : ℚ) : ℚ := (round (x * 10 ^ d) : ℚ) / 10 ^ d

/-- The module's `_BASIC_STOPWORDS` set (50 words), as lowercase tokens. -/
def BASIC_STOPWORDS : List (List Char) :=
  (["the", "be", "to", "of", "and", "a", "in", "that", "have", "i", "it",
    "for", "not", "on", "with", "he", "as", "you", "do", "at", "this",
    "but", "his", "by", "from", "they", "we", "say", "her", "she", "or",
    "an", "will", "my", "one", "all", "would", "there", "their",
    "what", "so", "up", "out", "if", "about", "who", "get", "which",
    "go", "me"] : List String).map String.toList

/-- Left word-boundary test `\b` before a word character, given the
character preceding the current position (`none` at start of text). -/
def leftBoundaryOk (prev : Option Char) : Bool :=
  match prev with
  | none => true
  | some c => !isWordish c

/-- Right word-boundary test `\b` after a word character, given the rest of
the text following the match. -/
def rightBoundaryOk : List Char → Bool
  | [] => true
  | c :: _ => !isWordish c

/-- Does the fixed pattern `pat` (starting and ending in word characters)
match at the head of `s` with word boundaries on both sides? -/
def matchPatAt (prev : Option Char) (s : List Char) (pat : List Char) : Bool :=
  !pat.isEmpty && pat.isPrefixOf s && leftBoundaryOk prev &&
    rightBoundaryOk (s.drop pat.length)

/-- Non-overlapping left-to-right scan counting matches of the alternation
of the fixed patterns `pats`, each wrapped in `\b...\b` — the length of
`re.findall(r"\b(p1|p2|...)\b", s)`.  `prev` is the character before the
current position; a positive `skip` means we are inside an earlier match,
where no new match may start. -/
def countPatsAux (pats : List (List Char)) : List Char → Option Char → ℕ → ℕ
  | [], _, _ => 0
  | c :: rest, _, skip + 1 => countPatsAux pats rest (some c) skip
  | c :: rest, prev, 0 =>
    match pats.find? (matchPatAt prev (c :: rest)) with
    | some pat => 1 + countPatsAux pats rest (some c) (pat.length - 1)
    | none => countPatsAux pats rest (some c) 0

/-- Count of non-overlapping `\b(p1|...)\b` matches in `s`. -/
def countPats (pats : List (List Char)) (s : List Char) : ℕ :=
  countPatsAux pats s none 0

/-- Figurative-comparison markers: `\b(like|as if|as though)\b`. -/
def FIGURATIVE_PATS : List (List Char) :=
  (["like", "as if", "as though"] : List String).map String.toList

/-- Interjections: `\b(hey|wow|ah|oh|hmm|ugh|ha)\b`. -/
def INTERJECTION_PATS : List (List Char) :=
  (["hey", "wow", "ah", "oh", "hmm", "ugh", "ha"] : List String).map String.toList

/-- Hedges: `\b(maybe|kind of|sort of|perhaps|somewhat|a bit)\b`. -/
def HEDGE_PATS : List (List Char) :=
  (["maybe", "kind of", "sort of", "perhaps", "somewhat", "a bit"]
    : List String).map String.toList

/-- The "be" forms of the passive-cue regex. -/
def BE_FORMS : List (List Char) :=
  (["be", "been", "being", "is", "was", "were", "are"] : List String).map
    String.toList

/-- Match of the passive-cue regex `\b(be|been|...)\b\s+\b\w+ed\b` at the
head of `s`: the maximal word-character run must be a "be" form, followed
by at least one whitespace character, followed by a maximal word-character
run of length ≥ 3 ending in "ed".  Returns the matched length. -/
def passiveMatchLen (prev : Option Char) (s : List Char) : Option ℕ :=
  if leftBoundaryOk prev then
    let run1 := s.takeWhile isWordish
    if BE_FORMS.contains run1 then
      let rest1 := s.drop run1.length
      let sp := rest1.takeWhile (fun c => isSpaceChar c)
      if sp.isEmpty then none
      else
        let run2 := (rest1.drop sp.length).takeWhile isWordish
        if 3 ≤ run2.length && List.isSuffixOf ['e', 'd'] run2 then
          some (run1.length + sp.length + run2.length)
        else none
    else none
  else none

/-- Scan counting non-overlapping passive-cue matches (same conventions as
`countPatsAux`). -/
def countPassiveAux : List Char → Option Char → ℕ → ℕ
  | [], _, _ => 0
  | c :: rest, _, skip + 1 => countPassiveAux rest (some c) skip
  | c :: rest, prev, 0 =>
    match passiveMatchLen prev (c :: rest) with
    | some n => 1 + countPassiveAux rest (some c) (n - 1)
    | none => countPassiveAux rest (some c) 0

/-- `len(re.findall(r"\b(be|been|being|is|was|were|are)\b\s+\b\w+ed\b", s))`. -/
def countPassive (s : List Char) : ℕ := countPassiveAux s none 0

/-- The record returned by `analyze_text`. -/
structure StyleMetrics where
  sentence_length_avg : ℚ
  sentence_length_var : ℤ
  vocab_richness : ℚ
  frequent_words : List (List Char)
  punctuation_use : List (Char × ℕ)

/-- Per-sentence token counts of a (cleaned) text. -/
def sentenceLengths (text : List Char) : List ℕ :=
  (sentencesOf text).map (fun s => (fallback_tokens s).length)

/-- `[w for w in words if w.lower() not in stopwords]`: case-preserving
filter that drops a token when its lowercase form is a stopword. -/
def nonStopWords (ws : List (List Char)) : List (List Char) :=
  ws.filter (fun w => decide (lowerTok w ∉ BASIC_STOPWORDS))

/-- `analyze_text` (fallback path): core style metrics. -/
def analyze_text (text : List Char) : StyleMetrics :=
  let t := clean_text text
  let lens := sentenceLengths t
  let words := fallback_tokens t
  let punct := t.filter (fun c => isPunctChar c)
  { sentence_length_avg :=
      roundTo 2 (if lens = [] then 0 else (lens.sum : ℚ) / lens.length)
    sentence_length_var :=
      if lens = [] then 0 else (listMax lens : ℤ) - (listMin lens : ℤ)
    vocab_richness :=
      roundTo 2 (if words = [] then 0
        else ((words.map lowerTok).dedup.length : ℚ) / words.length)
    frequent_words := mostCommonKeys 5 (nonStopWords words)
    punctuation_use := (dedupFirst punct).map (fun c => (c, punct.count c)) }

/-- The record returned by `analyze_flow_text`. -/
structure FlowMetrics where
  word_count : ℕ
  vocab_type_count : ℕ
  vocab_ttr : ℚ
  repetition_rate : ℚ
  playfulness_score : ℚ
  clarity_score : ℚ
  creativity_score : ℚ

/-- `_unique_types`: number of distinct lowercase token forms. -/
def unique_types (tokens : List (List Char)) : ℕ := (tokens.map lowerTok).dedup.length

/-- Flow type-token ratio before rounding: `types / word_count`, `0` when
there are no tokens. -/
def flowTtr (text : List Char) : ℚ :=
  let wc := (tokenize_alpha text).length
  if wc = 0 then 0 else (unique_types (tokenize_alpha text) : ℚ) / wc

/-- Flow repetition rate before clamping/rounding: `1 - types/word_count`,
`0` when there are no tokens. -/
def flowRepetition (text : List Char) : ℚ :=
  let wc := (tokenize_alpha text).length
  if wc = 0 then 0 else 1 - (unique_types (tokenize_alpha text) : ℚ) / wc

/-- The ten punctuation marks of the playfulness variety count. -/
def PLAY_PUNCT : List Char :=
  [',', '.', Char.ofNat 8212, '-', ':', ';', '!', '?', '(', ')']

/-- Number of distinct characters of the text that belong to `PLAY_PUNCT`. -/
def punctVariety (text : List Char) : ℕ :=
  ((text.filter (fun c => PLAY_PUNCT.contains c)).dedup).length

/-- Playfulness heuristic before rounding. -/
def playfulness (text : List Char) : ℚ :=
  clamp ((15 / 100) * (min (punctVariety text) 6 : ℕ)
    + (2 / 10) * (countPats FIGURATIVE_PATS (text.map lowerChar) : ℕ)
    + (1 / 10) * (countPats INTERJECTION_PATS (text.map lowerChar) : ℕ)
    + (6 / 10) * clamp (flowTtr text / (6 / 10)))

/-- Mean per-sentence token count of the raw (uncleaned) text, as computed
inside `analyze_flow_text`; `0` when there are no sentences. -/
def avgSentLen (text : List Char) : ℚ :=
  let ss := sentencesOf text
  if ss = [] then 0
  else ((ss.map (fun s => (tokenize_alpha s).length)).sum : ℚ) / ss.length

/-- Clarity heuristic before rounding. -/
def clarity (text : List Char) : ℚ :=
  clamp ((6 / 10) * clamp (1 - max 0 (avgSentLen text - 18) / 22)
    + (25 / 100) * clamp (1 - (countPats HEDGE_PATS (text.map lowerChar) : ℕ) / 4)
    + (15 / 100) * clamp (1 - (countPassive (text.map lowerChar) : ℕ) / 3))

/-- Rare tokens of the creativity heuristic: lowercase tokens longer than
6 characters that are not stopwords. -/
def rareTokens (text : List Char) : List (List Char) :=
  ((tokenize_alpha text).map lowerTok).filter
    (fun t => decide (t ∉ BASIC_STOPWORDS) && decide (6 < t.length))

/-- Creativity heuristic before rounding. -/
def creativity (text : List Char) : ℚ :=
  let wc := (tokenize_alpha text).length
  let rate : ℚ := if wc = 0 then 0 else ((rareTokens text).length : ℚ) / wc
  clamp ((7 / 10) * clamp (rate / (15 / 100))
    + (3 / 10) * clamp (flowTtr text / (6 / 10)))

/-- `analyze_flow_text` (fallback path): fast lexical metrics and goal
heuristics for FlowState bursts. -/
def analyze_flow_text (text : List Char) : FlowMetrics :=
  { word_count := (tokenize_alpha text).length
    vocab_type_count := unique_types (tokenize_alpha text)
    vocab_ttr := roundTo 4 (flowTtr text)
    repetition_rate := roundTo 4 (clamp (flowRepetition text))
    playfulness_score := roundTo 4 (playfulness text)
    clarity_score := roundTo 4 (clarity text)
    creativity_score := roundTo 4 (creativity text) }

/-- `metrics.get(f"{g}_score", 0.0)`: the score field selected by a goal
name, `0` for any name that is not one of the three score keys. -/
def goalScore (m : FlowMetrics) (g : String) : ℚ :=
  if g = "playfulness" then m.playfulness_score
  else if g = "clarity" then m.clarity_score
  else if g = "creativity" then m.creativity_score
  else 0

/-- The `goal_scores` list of `compute_flow_composite`. -/
def goalScores (m : FlowMetrics) (goal_focus : List String) : List ℚ :=
  goal_focus.map (goalScore m)

/-- The `goal_avg` of `compute_flow_composite`: mean of the selected goal
scores, `0` when no goals are selected. -/
def goalAvg (m : FlowMetrics) (goal_focus : List String) : ℚ :=
  if goalScores m goal_focus = [] then 0
  else (goalScores m goal_focus).sum / (goalScores m goal_focus).length

/-- `compute_flow_composite`: explainable practice score, baseline 100. -/
def compute_flow_composite (elapsed_seconds : ℚ) (m : FlowMetrics)
    (goal_focus : List String) : ℚ :=
  let wpm : ℚ :=
    if 0 < elapsed_seconds then 60 * m.word_count / elapsed_seconds else 0
  roundTo 2 (100
    + 10 * clamp (wpm / 40)
    + 20 * clamp (m.vocab_ttr / (6 / 10))
    + 20 * clamp (goalAvg m goal_focus)
    - 10 * clamp (m.repetition_rate * 2))

/-- The `frequent_words` pipeline as the specification words it: tokens are
lowercased, stopwords removed, then the 5 most frequent remaining tokens
are returned (descending frequency, ties by first appearance).  Spec-side
definition, for comparison with the one embedded from the source. -/
def specFrequentWords (text : List Char) : List (List Char) :=
  mostCommonKeys 5
    (((fallback_tokens (clean_text text)).map lowerTok).filter
      (fun w => decide (w ∉ BASIC_STOPWORDS)))

/-- Words-per-minute as the specification words it:
`60 · word_count / elapsed_seconds` if `elapsed_seconds > 0`, else `0`. -/
def specWpm (elapsed_seconds : ℚ) (word_count : ℕ) : ℚ :=
  if 0 < elapsed_seconds then 60 * word_count / elapsed_seconds else 0

/-- The composite formula as the specification words it:
`100 + 10·clamp(wpm/40) + 20·clamp(ttr/0.6) + 20·clamp(goal_average)
 − 10·clamp(repetition_rate·2)`, rounded to 2 decimals.  Spec-side
definition, for comparison with the one embedded from the source. -/
def specComposite (elapsed_seconds : ℚ) (m : FlowMetrics)
    (goal_focus : List String) : ℚ :=
  roundTo 2 (100
    + 10 * clamp (specWpm elapsed_seconds m.word_count / 40)
    + 20 * clamp (m.vocab_ttr / (6 / 10))
    + 20 * clamp (goalAvg m goal_focus)
    - 10 * clamp (m.repetition_rate * 2))

/-- The FlowMetrics record of the spec's composite-score scenario
(word_count 40, vocab_ttr 0.6, repetition_rate 0.2, clarity_score 0.8). -/
def m142 : FlowMetrics :=
  { word_count := 40
    vocab_type_count := 24
    vocab_ttr := 6 / 10
    repetition_rate := 2 / 10
    playfulness_score := 0
    clarity_score := 8 / 10
    creativity_score := 0 }

/-- A Document consisting of the word "go" repeated 201 times. -/
def repeatedGo : List Char := (List.replicate 201 [' ', 'g', 'o']).flatten

theorem clamp_nonneg (x : ℚ) : 0 ≤ clamp x := le_max_left _ _

theorem clamp_le_one (x : ℚ) : clamp x ≤ 1 :=
  max_le (by norm_num) (min_le_left _ _)

theorem clamp_mono {x y : ℚ} (h : x ≤ y) : clamp x ≤ clamp y :=
  max_le_max le_rfl (min_le_min le_rfl h)

theorem clamp_of_nonpos {x : ℚ} (h : x ≤ 0) : clamp x = 0 :=
  max_eq_left (le_trans (min_le_right _ _) h)

theorem roundTo_mono (d : ℕ) {x y : ℚ} (h : x ≤ y) : roundTo d x ≤ roundTo d y := by
  unfold roundTo
  have h10 : (0 : ℚ) < 10 ^ d := by positivity
  refine (div_le_div_iff_of_pos_right h10).mpr ?_
  have hr : round (x * 10 ^ d) ≤ round (y * 10 ^ d) := by
    rw [round_eq, round_eq]
    exact Int.floor_mono (by nlinarith)
  exact_mod_cast hr

theorem roundTo_zero (d : ℕ) : roundTo d 0 = 0 := by
  unfold roundTo
  simp

theorem roundTo_one (d : ℕ) : roundTo d 1 = 1 := by
  unfold roundTo
  have h1 : ((1 : ℚ) * 10 ^ d) = ((10 ^ d : ℤ) : ℚ) := by push_cast; ring
  rw [h1, round_intCast]
  have h10 : (10 : ℚ) ^ d ≠ 0 := by positivity
  push_cast
  exact div_self h10

theorem roundTo_mem_unit (d : ℕ) {x : ℚ} (h0 : 0 ≤ x) (h1 : x ≤ 1) :
    0 ≤ roundTo d x ∧ roundTo d x ≤ 1 :=
  ⟨roundTo_zero d ▸ roundTo_mono d h0, roundTo_one d ▸ roundTo_mono d h1⟩

theorem runTokensAux_sound (p : Char → Bool) :
    ∀ (s cur : List Char), (∀ c ∈ cur, p c = true) →
      ∀ t ∈ runTokensAux p s cur, t ≠ [] ∧ ∀ c ∈ t, p c = true := by
  intro s
  induction s with
  | nil =>
    intro cur hcur t ht
    unfold runTokensAux at ht
    by_cases hc : cur.isEmpty
    · simp [hc] at ht
    · simp only [hc, Bool.false_eq_true, if_false, List.mem_singleton] at ht
      subst ht
      refine ⟨?_, ?_⟩
      · simp only [ne_eq, List.reverse_eq_nil_iff]
        exact fun h => hc (by simp [h])
      · intro c hc2
        exact hcur c (List.mem_reverse.mp hc2)
  | cons a rest ih =>
    intro cur hcur t ht
    unfold runTokensAux at ht
    by_cases hp : p a
    · simp only [hp, if_true] at ht
      refine ih (a :: cur) ?_ t ht
      intro c hc
      rcases List.mem_cons.mp hc with h | h
      · subst h; exact hp
      · exact hcur c h
    · simp only [hp, Bool.false_eq_true, if_false] at ht
      by_cases hc : cur.isEmpty
      · simp only [hc, if_true] at ht
        exact ih [] (by simp) t ht
      · simp only [hc, Bool.false_eq_true, if_false, List.mem_cons] at ht
        rcases ht with h | h
        · subst h
          refine ⟨?_, ?_⟩
          · simp only [ne_eq, List.reverse_eq_nil_iff]
            exact fun h => hc (by simp [h])
          · intro c hc2
            exact hcur c (List.mem_reverse.mp hc2)
        · exact ih [] (by simp) t h

theorem fallback_tokens_sound (text : List Char) :
    ∀ t ∈ fallback_tokens text, t ≠ [] ∧ ∀ c ∈ t, isWordChar c = true :=
  runTokensAux_sound isWordChar text [] (by simp)

theorem listMin_le_listMax : ∀ (x : ℕ) (t : List ℕ), listMin (x :: t) ≤ listMax (x :: t) := by
  intro x t
  induction t generalizing x with
  | nil => exact le_rfl
  | cons y s ih =>
    show min x (listMin (y :: s)) ≤ max x (listMax (y :: s))
    exact le_trans (min_le_right _ _) (le_trans (ih y) (le_max_right _ _))

theorem dedupFirstAux_subset [DecidableEq α] :
    ∀ (l seen : List α) (x : α), x ∈ dedupFirstAux l seen → x ∈ l := by
  intro l
  induction l with
  | nil => intro seen x hx; simp [dedupFirstAux] at hx
  | cons a rest ih =>
    intro seen x hx
    unfold dedupFirstAux at hx
    by_cases ha : a ∈ seen
    · simp only [ha, if_true] at hx
      exact List.mem_cons_of_mem a (ih seen x hx)
    · simp only [ha, if_false, List.mem_cons] at hx
      rcases hx with h | h
      · exact h ▸ List.mem_cons_self a rest
      · exact List.mem_cons_of_mem a (ih (a :: seen) x h)

theorem dedupFirst_subset [DecidableEq α] (l : List α) (x : α)
    (hx : x ∈ dedupFirst l) : x ∈ l :=
  dedupFirstAux_subset l [] x hx

theorem mostCommonKeys_length (k : ℕ) (l : List (List Char)) :
    (mostCommonKeys k l).length ≤ k := by
  unfold mostCommonKeys
  rw [List.length_take]
  exact min_le_left _ _

theorem mostCommonKeys_subset (k : ℕ) (l : List (List Char)) (x : List Char)
    (hx : x ∈ mostCommonKeys k l) : x ∈ l := by
  unfold mostCommonKeys at hx
  have h1 := List.take_subset k _ hx
  have h2 := (List.perm_insertionSort (fun a b => l.count b ≤ l.count a) (dedupFirst l)).mem_iff.mp h1
  exact dedupFirst_subset l x h2

theorem mostCommonKeys_sorted (k : ℕ) (l : List (List Char)) :
    List.Sorted (fun a b => l.count b ≤ l.count a) (mostCommonKeys k l) := by
  haveI : IsTotal (List Char) (fun a b => l.count b ≤ l.count a) :=
    ⟨fun a b => le_total _ _⟩
  haveI : IsTrans (List Char) (fun a b => l.count b ≤ l.count a) :=
    ⟨fun a b c h1 h2 => le_trans h2 h1⟩
  exact List.Pairwise.sublist (List.take_sublist _ _)
    (List.sorted_insertionSort (fun a b => l.count b ≤ l.count a) (dedupFirst l))

theorem nonStopWords_mem {ws : List (List Char)} {w : List Char}
    (hw : w ∈ nonStopWords ws) : w ∈ ws ∧ lowerTok w ∉ BASIC_STOPWORDS := by
  have h := List.mem_filter.mp hw
  exact ⟨h.1, of_decide_eq_true h.2⟩

theorem stopwords_lower_fixed :
    ∀ w ∈ BASIC_STOPWORDS, lowerTok w = w := by decide

theorem unique_types_le_length (tokens : List (List Char)) :
    unique_types tokens ≤ tokens.length := by
  unfold unique_types
  calc (tokens.map lowerTok).dedup.length
      ≤ (tokens.map lowerTok).length := (List.dedup_sublist _).length_le
    _ = tokens.length := List.length_map _ _

theorem flowTtr_nonneg (text : List Char) : 0 ≤ flowTtr text := by
  unfold flowTtr
  by_cases h : (tokenize_alpha text).length = 0
  · simp [h]
  · simp only [h, if_false]
    positivity

theorem flowTtr_le_one (text : List Char) : flowTtr text ≤ 1 := by
  unfold flowTtr
  by_cases h : (tokenize_alpha text).length = 0
  · simp [h]
  · simp only [h, if_false]
    rw [div_le_one (by exact_mod_cast Nat.pos_of_ne_zero h)]
    exact_mod_cast unique_types_le_length (tokenize_alpha text)


theorem clamp_zero : clamp 0 = 0 := by norm_num [clamp, min_def, max_def]

theorem clamp_one : clamp 1 = 1 := by norm_num [clamp, min_def, max_def]

theorem roundTo_int (d : ℕ) (n : ℤ) : roundTo d (n : ℚ) = n := by
  unfold roundTo
  have h : ((n : ℚ) * 10 ^ d) = ((n * 10 ^ d : ℤ) : ℚ) := by push_cast; ring
  rw [h, round_intCast]
  have h10 : (10 : ℚ) ^ d ≠ 0 := by positivity
  push_cast
  field_simp

theorem flowTtr_nil : flowTtr [] = 0 := rfl

theorem flowRepetition_nil : flowRepetition [] = 0 := rfl

theorem playfulness_nil : playfulness [] = 0 := by
  have hpv : punctVariety [] = 0 := rfl
  have hfig : countPats FIGURATIVE_PATS [] = 0 := rfl
  have hint : countPats INTERJECTION_PATS [] = 0 := rfl
  unfold playfulness
  norm_num [hpv, hfig, hint, flowTtr_nil, clamp, min_def, max_def]

theorem clarity_nil : clarity [] = 1 := by
  have hs : avgSentLen [] = 0 := rfl
  have hh : countPats HEDGE_PATS [] = 0 := rfl
  have hp : countPassive [] = 0 := rfl
  unfold clarity
  norm_num [hs, hh, hp, clamp, min_def, max_def]

theorem creativity_nil : creativity [] = 0 := by
  have hr : rareTokens [] = ([] : List (List Char)) := rfl
  unfold creativity
  norm_num [hr, flowTtr_nil, clamp, min_def, max_def]

theorem analyze_text_var_eq (text : List Char) :
    (analyze_text text).sentence_length_var =
      (if sentenceLengths (clean_text text) = [] then 0
       else (listMax (sentenceLengths (clean_text text)) : ℤ) -
            (listMin (sentenceLengths (clean_text text)) : ℤ)) := rfl

theorem analyze_text_vocab_richness_eq (text : List Char) :
    (analyze_text text).vocab_richness =
      roundTo 2 (if fallback_tokens (clean_text text) = [] then 0
        else (((fallback_tokens (clean_text text)).map lowerTok).dedup.length : ℚ) /
          (fallback_tokens (clean_text text)).length) := rfl

theorem analyze_text_frequent_words_eq (text : List Char) :
    (analyze_text text).frequent_words =
      mostCommonKeys 5 (nonStopWords (fallback_tokens (clean_text text))) := rfl

/-- Claim C1 (corrected): on the empty Document, `analyze_flow_text` returns
zero for `word_count`, `vocab_type_count`, `vocab_ttr`, `repetition_rate`,
`playfulness_score` and `creativity_score`, but `clarity_score` is `1.0`,
not `0.0`: with no sentences, no hedges and no passive cues, each of the
three clarity terms attains its maximum. -/
theorem flow_empty_metrics :
    (analyze_flow_text []).word_count = 0 ∧
    (analyze_flow_text []).vocab_type_count = 0 ∧
    (analyze_flow_text []).vocab_ttr = 0 ∧
    (analyze_flow_text []).repetition_rate = 0 ∧
    (analyze_flow_text []).playfulness_score = 0 ∧
    (analyze_flow_text []).creativity_score = 0 ∧
    (analyze_flow_text []).clarity_score = 1 := by
  refine ⟨rfl, rfl, ?_, ?_, ?_, ?_, ?_⟩
  · show roundTo 4 (flowTtr []) = 0
    rw [flowTtr_nil]; exact roundTo_zero 4
  · show roundTo 4 (clamp (flowRepetition [])) = 0
    rw [flowRepetition_nil, clamp_zero]; exact roundTo_zero 4
  · show roundTo 4 (playfulness []) = 0
    rw [playfulness_nil]; exact roundTo_zero 4
  · show roundTo 4 (creativity []) = 0
    rw [creativity_nil]; exact roundTo_zero 4
  · show roundTo 4 (clarity []) = 1
    rw [clarity_nil]; exact roundTo_one 4

/-- Counterexample to claim C1 as stated: the empty Document's FlowMetrics
record is not all-zero — its `clarity_score` is `1`, not `0`. -/
theorem flow_empty_clarity_not_zero :
    (analyze_flow_text []).clarity_score = 1 ∧
    ¬ (analyze_flow_text []).clarity_score = 0 := by
  have h : (analyze_flow_text []).clarity_score = 1 := by
    show roundTo 4 (clarity []) = 1
    rw [clarity_nil]; exact roundTo_one 4
  exact ⟨h, by rw [h]; norm_num⟩

/-- Claim C3 (corrected): every token produced by the fallback tokenizer is
a nonempty run of characters drawn from ASCII letters and apostrophes (it
need not contain a letter: an all-apostrophe run is also a token). -/
theorem fallback_tokens_chars (text : List Char) :
    ∀ t ∈ fallback_tokens text, t ≠ [] ∧ ∀ c ∈ t, isWordChar c = true :=
  fallback_tokens_sound text

theorem fallback_tokens_chars_witness :
    (['a', 'b'] ∈ fallback_tokens (String.toList "ab")) ∧
    ['a', 'b'] ≠ ([] : List Char) ∧ isWordChar 'a' = true :=
  ⟨by decide,
   (fallback_tokens_chars (String.toList "ab") ['a', 'b'] (by decide)).1,
   (fallback_tokens_chars (String.toList "ab") ['a', 'b'] (by decide)).2 'a' (by decide)⟩

/-- Counterexample to claim C3 as stated: the Document `''` (two
apostrophes) produces the single token `''`, which contains no ASCII
letter. -/
theorem fallback_tokens_no_letter_counterexample :
    fallback_tokens [apos, apos] = [[apos, apos]] ∧
    ¬ ∃ c ∈ [apos, apos], isAsciiLetter c = true := by decide

/-- Claim C4 (corrected): `vocab_richness` always lies in `[0, 1]`, and it
is `0.0` whenever the Document has no word tokens; but the converse fails,
because the ratio is rounded to 2 decimals and a positive ratio below
`0.005` rounds to `0.0`. -/
theorem vocab_richness_bounds (text : List Char) :
    0 ≤ (analyze_text text).vocab_richness ∧
    (analyze_text text).vocab_richness ≤ 1 ∧
    (fallback_tokens (clean_text text) = [] →
      (analyze_text text).vocab_richness = 0) := by
  rw [analyze_text_vocab_richness_eq]
  by_cases h : fallback_tokens (clean_text text) = []
  · simp [h, roundTo_zero]
  · simp only [h, if_false]
    have hpos : (0 : ℚ) < (fallback_tokens (clean_text text)).length := by
      exact_mod_cast List.length_pos_of_ne_nil h
    have h0 : (0 : ℚ) ≤
        (((fallback_tokens (clean_text text)).map lowerTok).dedup.length : ℚ) /
          (fallback_tokens (clean_text text)).length := by positivity
    have h1 : (((fallback_tokens (clean_text text)).map lowerTok).dedup.length : ℚ) /
          (fallback_tokens (clean_text text)).length ≤ 1 := by
      rw [div_le_one hpos]
      have hd := (List.dedup_sublist ((fallback_tokens (clean_text text)).map lowerTok)).length_le
      rw [List.length_map] at hd
      exact_mod_cast hd
    exact ⟨(roundTo_mem_unit 2 h0 h1).1, (roundTo_mem_unit 2 h0 h1).2,
      fun hc => hc.elim⟩

theorem vocab_richness_bounds_witness :
    fallback_tokens (clean_text []) = [] ∧ (analyze_text []).vocab_richness = 0 :=
  ⟨by decide, (vocab_richness_bounds []).2.2 (by decide)⟩

/-- Claim C5 (confirmed): the three heuristic scores, `vocab_ttr` and
`repetition_rate` of `analyze_flow_text` all lie in `[0, 1]` for every
Document. -/
theorem flow_scores_bounds (text : List Char) :
    (0 ≤ (analyze_flow_text text).playfulness_score ∧
      (analyze_flow_text text).playfulness_score ≤ 1) ∧
    (0 ≤ (analyze_flow_text text).clarity_score ∧
      (analyze_flow_text text).clarity_score ≤ 1) ∧
    (0 ≤ (analyze_flow_text text).creativity_score ∧
      (analyze_flow_text text).creativity_score ≤ 1) ∧
    (0 ≤ (analyze_flow_text text).vocab_ttr ∧
      (analyze_flow_text text).vocab_ttr ≤ 1) ∧
    (0 ≤ (analyze_flow_text text).repetition_rate ∧
      (analyze_flow_text text).repetition_rate ≤ 1) :=
  ⟨roundTo_mem_unit 4 (clamp_nonneg _) (clamp_le_one _),
   roundTo_mem_unit 4 (clamp_nonneg _) (clamp_le_one _),
   roundTo_mem_unit 4 (clamp_nonneg _) (clamp_le_one _),
   roundTo_mem_unit 4 (flowTtr_nonneg text) (flowTtr_le_one text),
   roundTo_mem_unit 4 (clamp_nonneg _) (clamp_le_one _)⟩

set_option maxRecDepth 100000 in
/-- Counterexample to claim C4 as stated: the Document made of 201 copies
of the word "go" has word tokens, yet its `vocab_richness` is `0.0`,
because `1/201` rounds to `0.00`. -/
theorem vocab_richness_zero_counterexample :
    fallback_tokens (clean_text repeatedGo) ≠ [] ∧
    (analyze_text repeatedGo).vocab_richness = 0 := by
  have htok : fallback_tokens (clean_text repeatedGo) =
      List.replicate 201 ['g', 'o'] := by decide
  have hne : (List.replicate 201 (['g', 'o'] : List Char)) ≠ [] := by
    simp [List.replicate]
  constructor
  · rw [htok]; exact hne
  · rw [analyze_text_vocab_richness_eq, htok, if_neg hne]
    have hmap : (List.replicate 201 (['g', 'o'] : List Char)).map lowerTok =
        List.replicate 201 ['g', 'o'] := by
      rw [List.map_replicate]
      have : lowerTok ['g', 'o'] = ['g', 'o'] := by decide
      rw [this]
    rw [hmap, List.replicate_dedup (by norm_num), List.length_replicate]
    norm_num [roundTo, round_eq]

/-- Claim C2 (corrected): `frequent_words` filters a token out when its
LOWERCASE form is a stopword, but — unlike the spec's description — it does
not lowercase the tokens before counting: counting is case-sensitive.  The
consequents hold: the list has length at most 5, no element (nor its
lowercase form) is in the stopword set, and the list is ordered by
descending frequency among the stop-filtered tokens (ties by first
appearance). -/
theorem frequent_words_props (text : List Char) :
    (analyze_text text).frequent_words.length ≤ 5 ∧
    (∀ w ∈ (analyze_text text).frequent_words,
        lowerTok w ∉ BASIC_STOPWORDS ∧ w ∉ BASIC_STOPWORDS) ∧
    List.Sorted (fun a b =>
      (nonStopWords (fallback_tokens (clean_text text))).count b ≤
      (nonStopWords (fallback_tokens (clean_text text))).count a)
      (analyze_text text).frequent_words := by
  rw [analyze_text_frequent_words_eq]
  refine ⟨mostCommonKeys_length 5 _, ?_, mostCommonKeys_sorted 5 _⟩
  intro w hw
  have hns := nonStopWords_mem (mostCommonKeys_subset 5 _ w hw)
  refine ⟨hns.2, ?_⟩
  intro hstop
  exact hns.2 (by rw [stopwords_lower_fixed w hstop]; exact hstop)

theorem frequent_words_props_witness :
    (String.toList "Apple" ∈
      (analyze_text (String.toList "Apple apple")).frequent_words) ∧
    lowerTok (String.toList "Apple") ∉ BASIC_STOPWORDS :=
  ⟨by decide,
   ((frequent_words_props (String.toList "Apple apple")).2.1 _ (by decide)).1⟩

/-- Counterexample to claim C2 as stated: on the Document "Apple apple" the
code returns `["Apple", "apple"]` — the two case-variants are counted as
distinct tokens — whereas lowercasing before counting (the spec's
description, `specFrequentWords`) would return `["apple"]`. -/
theorem frequent_words_lowercasing_counterexample :
    (analyze_text (String.toList "Apple apple")).frequent_words =
      [String.toList "Apple", String.toList "apple"] ∧
    (analyze_text (String.toList "Apple apple")).frequent_words ≠
      specFrequentWords (String.toList "Apple apple") := by decide

/-- Claim C6 (confirmed): `compute_flow_composite` returns exactly the
spec's formula `100 + 10·clamp(wpm/40) + 20·clamp(ttr/0.6) +
20·clamp(goal_average) − 10·clamp(repetition_rate·2)` rounded to 2
decimals, and on the spec's concrete scenario (60 s, 40 words, ttr 0.6,
goal clarity with clarity_score 0.8, repetition 0.2) it returns 142.0. -/
theorem composite_formula_and_example :
    (∀ (es : ℚ) (m : FlowMetrics) (gf : List String),
        compute_flow_composite es m gf = specComposite es m gf) ∧
    compute_flow_composite 60 m142 ["clarity"] = 142 := by
  constructor
  · intro es m gf
    rfl
  · have hone : goalScores m142 ["clarity"] = [(8 : ℚ) / 10] := by
      unfold goalScores goalScore
      simp only [List.map_cons, List.map_nil]
      rw [if_neg (by decide)]
      norm_num [m142]
    have hg : goalAvg m142 ["clarity"] = 8 / 10 := by
      unfold goalAvg
      rw [hone]
      norm_num
    show roundTo 2 (100
      + 10 * clamp ((if (0:ℚ) < 60 then 60 * (m142.word_count : ℚ) / 60 else 0) / 40)
      + 20 * clamp (m142.vocab_ttr / (6 / 10))
      + 20 * clamp (goalAvg m142 ["clarity"])
      - 10 * clamp (m142.repetition_rate * 2)) = 142
    rw [hg]
    have h142 : (100
        + 10 * clamp ((if (0:ℚ) < 60 then 60 * (m142.word_count : ℚ) / 60 else 0) / 40)
        + 20 * clamp (m142.vocab_ttr / (6 / 10))
        + 20 * clamp ((8 : ℚ) / 10)
        - 10 * clamp (m142.repetition_rate * 2)) = 142 := by
      norm_num [m142, clamp, min_def, max_def]
    rw [h142]
    exact_mod_cast roundTo_int 2 142

/-- Claim C7 (confirmed): holding the FlowMetrics record and the goal set
fixed, the composite score does not decrease when words-per-minute grows
(shrinking the elapsed time raises wpm, so the score at the smaller elapsed
time dominates), and holding everything else fixed it does not increase
when `repetition_rate` grows. -/
theorem composite_monotone :
    (∀ (m : FlowMetrics) (gf : List String) (es1 es2 : ℚ), 0 < es1 → es1 ≤ es2 →
        compute_flow_composite es2 m gf ≤ compute_flow_composite es1 m gf) ∧
    (∀ (es : ℚ) (m : FlowMetrics) (gf : List String) (r1 r2 : ℚ), r1 ≤ r2 →
        compute_flow_composite es { m with repetition_rate := r2 } gf ≤
        compute_flow_composite es { m with repetition_rate := r1 } gf) := by
  constructor
  · intro m gf es1 es2 h1 hle
    have h2 : (0 : ℚ) < es2 := lt_of_lt_of_le h1 hle
    show roundTo 2 (100
        + 10 * clamp ((if (0:ℚ) < es2 then 60 * (m.word_count : ℚ) / es2 else 0) / 40)
        + 20 * clamp (m.vocab_ttr / (6 / 10))
        + 20 * clamp (goalAvg m gf)
        - 10 * clamp (m.repetition_rate * 2)) ≤
      roundTo 2 (100
        + 10 * clamp ((if (0:ℚ) < es1 then 60 * (m.word_count : ℚ) / es1 else 0) / 40)
        + 20 * clamp (m.vocab_ttr / (6 / 10))
        + 20 * clamp (goalAvg m gf)
        - 10 * clamp (m.repetition_rate * 2))
    rw [if_pos h1, if_pos h2]
    apply roundTo_mono
    have hwpm : 60 * (m.word_count : ℚ) / es2 ≤ 60 * (m.word_count : ℚ) / es1 := by
      rw [div_le_div_iff₀ h2 h1]
      exact mul_le_mul_of_nonneg_left hle (by positivity)
    have hcl : clamp (60 * (m.word_count : ℚ) / es2 / 40) ≤
        clamp (60 * (m.word_count : ℚ) / es1 / 40) := clamp_mono (by linarith)
    linarith
  · intro es m gf r1 r2 hle
    show roundTo 2 (100
        + 10 * clamp ((if (0:ℚ) < es then 60 * (m.word_count : ℚ) / es else 0) / 40)
        + 20 * clamp (m.vocab_ttr / (6 / 10))
        + 20 * clamp (goalAvg { m with repetition_rate := r2 } gf)
        - 10 * clamp (r2 * 2)) ≤
      roundTo 2 (100
        + 10 * clamp ((if (0:ℚ) < es then 60 * (m.word_count : ℚ) / es else 0) / 40)
        + 20 * clamp (m.vocab_ttr / (6 / 10))
        + 20 * clamp (goalAvg { m with repetition_rate := r1 } gf)
        - 10 * clamp (r1 * 2))
    have hgoal : goalAvg { m with repetition_rate := r2 } gf =
        goalAvg { m with repetition_rate := r1 } gf := rfl
    rw [hgoal]
    apply roundTo_mono
    have hcl : clamp (r1 * 2) ≤ clamp (r2 * 2) := clamp_mono (by linarith)
    linarith

theorem composite_monotone_witness :
    compute_flow_composite 60 m142 [] ≤ compute_flow_composite 30 m142 [] ∧
    compute_flow_composite 60 { m142 with repetition_rate := 1 } [] ≤
      compute_flow_composite 60 { m142 with repetition_rate := 0 } [] :=
  ⟨composite_monotone.1 m142 [] 30 60 (by norm_num) (by norm_num),
   composite_monotone.2 60 m142 [] 0 1 (by norm_num)⟩

/-- Claim C8 (confirmed): with `elapsed_seconds ≤ 0` (including 0) the
composite is still defined and equals the formula with the wpm term
contributing exactly 0, whatever `word_count` is. -/
theorem composite_nonpositive_elapsed (es : ℚ) (m : FlowMetrics)
    (gf : List String) (h : es ≤ 0) :
    compute_flow_composite es m gf =
      roundTo 2 (100 + 20 * clamp (m.vocab_ttr / (6 / 10))
        + 20 * clamp (goalAvg m gf) - 10 * clamp (m.repetition_rate * 2)) := by
  show roundTo 2 (100
      + 10 * clamp ((if (0:ℚ) < es then 60 * (m.word_count : ℚ) / es else 0) / 40)
      + 20 * clamp (m.vocab_ttr / (6 / 10))
      + 20 * clamp (goalAvg m gf)
      - 10 * clamp (m.repetition_rate * 2)) = _
  rw [if_neg (not_lt.mpr h), zero_div, clamp_zero]
  norm_num

theorem composite_nonpositive_elapsed_witness :
    compute_flow_composite 0 m142 ["clarity"] =
      roundTo 2 (100 + 20 * clamp (m142.vocab_ttr / (6 / 10))
        + 20 * clamp (goalAvg m142 ["clarity"])
        - 10 * clamp (m142.repetition_rate * 2)) :=
  composite_nonpositive_elapsed 0 m142 ["clarity"] (by norm_num)

/-- Claim C9 (confirmed): `sentence_length_var` is the range (max − min) of
the per-sentence token counts, it is never negative, and it is 0 whenever
the Document has at most one sentence. -/
theorem sentence_length_var_range (text : List Char) :
    ((analyze_text text).sentence_length_var =
      (if sentenceLengths (clean_text text) = [] then 0
       else (listMax (sentenceLengths (clean_text text)) : ℤ) -
            (listMin (sentenceLengths (clean_text text)) : ℤ))) ∧
    0 ≤ (analyze_text text).sentence_length_var ∧
    ((sentencesOf (clean_text text)).length ≤ 1 →
      (analyze_text text).sentence_length_var = 0) := by
  refine ⟨analyze_text_var_eq text, ?_, ?_⟩
  · rw [analyze_text_var_eq]
    cases hl : sentenceLengths (clean_text text) with
    | nil => simp
    | cons x t =>
      rw [if_neg (by simp)]
      have hmm : listMin (x :: t) ≤ listMax (x :: t) := listMin_le_listMax x t
      simp only [sub_nonneg]
      exact_mod_cast hmm
  · intro hlen
    rw [analyze_text_var_eq]
    have hlen2 : (sentenceLengths (clean_text text)).length ≤ 1 := by
      unfold sentenceLengths
      rw [List.length_map]
      exact hlen
    cases hl : sentenceLengths (clean_text text) with
    | nil => simp
    | cons x t =>
      rw [hl] at hlen2
      simp only [List.length_cons] at hlen2
      have ht : t = [] := by
        cases t with
        | nil => rfl
        | cons y s => simp at hlen2
      subst ht
      rw [if_neg (by simp)]
      show (listMax [x] : ℤ) - (listMin [x] : ℤ) = 0
      simp [listMax, listMin]

theorem sentence_length_var_range_witness :
    (sentencesOf (clean_text (String.toList "Hi."))).length ≤ 1 ∧
    (analyze_text (String.toList "Hi.")).sentence_length_var = 0 :=
  ⟨by decide, (sentence_length_var_range (String.toList "Hi.")).2.2 (by decide)⟩

theorem clamp_avg_append_zero_le (s : List ℚ) :
    clamp (s.sum / ((s.length : ℚ) + 1)) ≤
      clamp (if s = [] then 0 else s.sum / (s.length : ℚ)) := by
  cases s with
  | nil => simp
  | cons x t =>
    rw [if_neg (by simp)]
    have hn : (0 : ℚ) < ((x :: t).length : ℚ) := by
      simp only [List.length_cons]
      positivity
    by_cases hs : 0 ≤ (x :: t).sum
    · apply clamp_mono
      rw [div_le_div_iff₀ (by linarith) hn]
      nlinarith
    · push_neg at hs
      have h1 : (x :: t).sum / (((x :: t).length : ℚ) + 1) ≤ 0 :=
        div_nonpos_iff.mpr (Or.inr ⟨le_of_lt hs, by linarith⟩)
      have h2 : (x :: t).sum / ((x :: t).length : ℚ) ≤ 0 :=
        div_nonpos_iff.mpr (Or.inr ⟨le_of_lt hs, le_of_lt hn⟩)
      rw [clamp_of_nonpos h1, clamp_of_nonpos h2]

theorem goalScores_append (m : FlowMetrics) (gf : List String) (g : String) :
    goalScores m (gf ++ [g]) = goalScores m gf ++ [goalScore m g] := by
  unfold goalScores
  rw [List.map_append]
  rfl

theorem goalAvg_append_zero (m : FlowMetrics) (gf : List String) (g : String)
    (hg : goalScore m g = 0) :
    goalAvg m (gf ++ [g]) =
      (goalScores m gf).sum / (((goalScores m gf).length : ℚ) + 1) := by
  unfold goalAvg
  rw [goalScores_append, hg, if_neg (by simp)]
  rw [List.sum_append, List.length_append]
  simp

/-- Claim C10 (confirmed): a goal name other than playfulness, clarity or
creativity is not ignored: it contributes an entry of 0 to the goal-score
list and inflates the denominator of the goal average, so appending an
unknown goal name never raises the composite score. -/
theorem composite_unknown_goal (es : ℚ) (m : FlowMetrics) (gf : List String)
    (g : String)
    (hg : g ∉ (["playfulness", "clarity", "creativity"] : List String)) :
    goalScore m g = 0 ∧
    compute_flow_composite es m (gf ++ [g]) ≤ compute_flow_composite es m gf := by
  have h1 : ¬ g = "playfulness" := fun h => hg (by rw [h]; simp)
  have h2 : ¬ g = "clarity" := fun h => hg (by rw [h]; simp)
  have h3 : ¬ g = "creativity" := fun h => hg (by rw [h]; simp)
  have hgs : goalScore m g = 0 := by
    unfold goalScore
    rw [if_neg h1, if_neg h2, if_neg h3]
  refine ⟨hgs, ?_⟩
  show roundTo 2 (100
      + 10 * clamp ((if (0:ℚ) < es then 60 * (m.word_count : ℚ) / es else 0) / 40)
      + 20 * clamp (m.vocab_ttr / (6 / 10))
      + 20 * clamp (goalAvg m (gf ++ [g]))
      - 10 * clamp (m.repetition_rate * 2)) ≤
    roundTo 2 (100
      + 10 * clamp ((if (0:ℚ) < es then 60 * (m.word_count : ℚ) / es else 0) / 40)
      + 20 * clamp (m.vocab_ttr / (6 / 10))
      + 20 * clamp (goalAvg m gf)
      - 10 * clamp (m.repetition_rate * 2))
  apply roundTo_mono
  have havg : clamp (goalAvg m (gf ++ [g])) ≤ clamp (goalAvg m gf) := by
    rw [goalAvg_append_zero m gf g hgs]
    have hB : goalAvg m gf = (if goalScores m gf = [] then 0
        else (goalScores m gf).sum / ((goalScores m gf).length : ℚ)) := rfl
    rw [hB]
    exact clamp_avg_append_zero_le (goalScores m gf)
  linarith

theorem composite_unknown_goal_witness :
    goalScore m142 "speed" = 0 ∧
    compute_flow_composite 60 m142 (["clarity"] ++ ["speed"]) ≤
      compute_flow_composite 60 m142 ["clarity"] :=
  composite_unknown_goal 60 m142 ["clarity"] "speed" (by decide)
